import Mathlib

/-!
Verification of the SportGate Pass credential/token core: a shallow
embedding of the QR payload signing/verification routines, the obfuscation
encode/decode pair used for the seed blob, the user record store, and the
secure-store session bookkeeping, together with theorems settling the
spec's claims about them.

External platform primitives (the SHA-256 hex digest, JSON
serialization/parsing, and the base64-of-UTF-8 text codec) are modelled as
function parameters; theorems assume only the pointwise facts about them
that the real primitives satisfy (digest output is non-empty hex text, the
codecs round-trip, base64 output contains no colon).

JavaScript truthiness of the checked fields is modelled explicitly: a
missing field is `none`, and a present field is falsy when it is the empty
string (for strings) or zero (for numbers).
-/

/-- A user record as read from the `users` table (`User` in the source). -/
structure User where
  id : Int
  email : String
  name : String
  phone : String
  access_level : String
  allowed_areas : List String
  is_active : Bool
deriving DecidableEq, Repr

/-- The inner QR payload object built by `generateSecureQRData`.  Fields are
`Option`s so that a payload obtained by parsing attacker-supplied JSON can
lack any of them (JavaScript `undefined`). -/
structure QRPayload where
  user_id : Option Int
  email : Option String
  name : Option String
  access_level : Option String
  allowed_areas : Option (List String)
  timestamp : Option Int
  expires_at : Option Int
  device_fingerprint : Option String
  version : Option String
deriving DecidableEq, Repr

/-- The outer envelope object (`securePayload` in the source):
`{ data, signature, timestamp }`. -/
structure Envelope where
  data : Option String
  signature : Option String
  timestamp : Option Int
deriving DecidableEq, Repr

/-- Result of `verifyQRData`: `{ valid: true, payload }` or
`{ valid: false, reason }`. -/
inductive VerifyResult where
  | valid (payload : QRPayload)
  | invalid (reason : String)
deriving DecidableEq, Repr

/-- The fixed shared secret `event_secret_key_2024`. -/
def qrSecret : String := "event_secret_key_2024"

/-- The 24-hour hard verification window, in milliseconds. -/
def hardWindowMs : Int := 24 * 60 * 60 * 1000

/-- JavaScript truthiness of an optional string field: present and
non-empty. -/
def truthyStr : Option String → Bool
  | none => false
  | some s => s != ""

/-- JavaScript truthiness of an optional numeric field: present and
non-zero. -/
def truthyInt : Option Int → Bool
  | none => false
  | some t => t != 0

/-- The inner payload literal built by `generateSecureQRData` from a user
record, the device fingerprint and the current time (`qrPayload` in the
source): expiry is one hour after issuance and the version tag is "2.0". -/
def issuedPayload (user : User) (fingerprint : String) (now : Int) : QRPayload :=
  { user_id := some user.id
    email := some user.email
    name := some user.name
    access_level := some user.access_level
    allowed_areas := some user.allowed_areas
    timestamp := some now
    expires_at := some (now + 60 * 60 * 1000)
    device_fingerprint := some fingerprint
    version := some "2.0" }

/-- The envelope built by `generateSecureQRData`: serialized inner payload,
its keyed digest, and the issuance timestamp.  `hash` models the SHA-256
hex digest and `sP` models `JSON.stringify` on the inner payload. -/
def issuedEnvelope (hash : String → String) (sP : QRPayload → String)
    (user : User) (fingerprint : String) (now : Int) : Envelope :=
  { data := some (sP (issuedPayload user fingerprint now))
    signature := some (hash (sP (issuedPayload user fingerprint now) ++ qrSecret))
    timestamp := some now }

/-- `generateSecureQRData`: serialize the signed envelope to the QR string.
`sE` models `JSON.stringify` on the envelope object. -/
def generateSecureQRData (hash : String → String) (sP : QRPayload → String)
    (sE : Envelope → String) (user : User) (fingerprint : String) (now : Int) : String :=
  sE (issuedEnvelope hash sP user fingerprint now)

/-- `verifyQRData`: parse the envelope, check field presence, the 24-hour
hard window, the recomputed signature, then parse the inner payload and
check its soft expiry.  `parseEnv` and `parseInner` model `JSON.parse` at
the two stages (returning `none` where the JavaScript code would throw and
land in the catch-all), and `hash` models the SHA-256 hex digest. -/
def verifyQRData (hash : String → String) (parseEnv : String → Option Envelope)
    (parseInner : String → Option QRPayload) (now : Int) (qrData : String) : VerifyResult :=
  match parseEnv qrData with
  | none => .invalid "Invalid QR data"
  | some parsed =>
    if !(truthyStr parsed.data && truthyStr parsed.signature && truthyInt parsed.timestamp) then
      .invalid "Invalid QR format"
    else if now - parsed.timestamp.getD 0 > hardWindowMs then
      .invalid "QR code expired"
    else if parsed.signature.getD "" != hash (parsed.data.getD "" ++ qrSecret) then
      .invalid "QR code tampered"
    else
      match parseInner (parsed.data.getD "") with
      | none => .invalid "Invalid QR data"
      | some payload =>
        if truthyInt payload.expires_at && decide (now > payload.expires_at.getD 0) then
          .invalid "QR code expired"
        else
          .valid payload

/-- C1: issuing a token and verifying it with the same clock reading yields
`Valid` with exactly the issued inner payload.  The hypotheses are the
modelled facts about the platform primitives: both `JSON.parse`s invert the
corresponding `JSON.stringify`s, serialization output is non-empty, the
digest output is non-empty, and the clock reading is positive (as every
real `Date.now()` reading is). -/
theorem issue_then_verify_valid (hash : String → String)
    (parseEnv : String → Option Envelope) (parseInner : String → Option QRPayload)
    (sP : QRPayload → String) (sE : Envelope → String)
    (user : User) (fp : String) (now : Int)
    (hE : parseEnv (generateSecureQRData hash sP sE user fp now) =
      some (issuedEnvelope hash sP user fp now))
    (hI : parseInner (sP (issuedPayload user fp now)) = some (issuedPayload user fp now))
    (hps : sP (issuedPayload user fp now) ≠ "")
    (hh : hash (sP (issuedPayload user fp now) ++ qrSecret) ≠ "")
    (hnow : 0 < now) :
    verifyQRData hash parseEnv parseInner now (generateSecureQRData hash sP sE user fp now) =
      .valid (issuedPayload user fp now) := by
  have b1 : (sP (issuedPayload user fp now) != "") = true := bne_iff_ne.mpr hps
  have b2 : (hash (sP (issuedPayload user fp now) ++ qrSecret) != "") = true := bne_iff_ne.mpr hh
  have b3 : (now != 0) = true := bne_iff_ne.mpr (by omega)
  rw [verifyQRData, hE]
  simp only [issuedEnvelope, truthyStr, truthyInt, Option.getD_some, hardWindowMs]
  rw [if_neg, if_neg, if_neg]
  · simp only [hI]
    rw [if_neg]
    simp only [issuedPayload, truthyInt, Option.getD_some, Bool.and_eq_true, bne_iff_ne, ne_eq,
      decide_eq_true_eq]
    omega
  · simp only [bne_self_eq_false, Bool.false_eq_true, not_false_eq_true]
  · omega
  · simp [b1, b2, b3]

/-! Concrete instantiations of the modelled platform primitives, used to
evaluate the theorems on closed inputs. -/

/-- A concrete stand-in for the hex digest: prepend a marker (injective,
never empty). -/
def hashW (s : String) : String := "H" ++ s

/-- A concrete user record. -/
def userW : User :=
  { id := 1
    email := "john.athlete@sports.com"
    name := "John Athlete"
    phone := "+1234567890"
    access_level := "General"
    allowed_areas := ["Main Arena", "General Entrance", "Food Court"]
    is_active := true }

/-- A concrete stand-in for inner-payload serialization. -/
def sPW (_ : QRPayload) : String := "PAY"

/-- A concrete stand-in for envelope serialization. -/
def sEW (_ : Envelope) : String := "ENV"

/-- A concrete stand-in for envelope parsing that inverts `sEW` on the one
envelope issued in the closed example. -/
def parseEnvW (s : String) : Option Envelope :=
  if s = "ENV" then some (issuedEnvelope hashW sPW userW "fp" 5) else none

/-- A concrete stand-in for inner-payload parsing that inverts `sPW` on the
one payload issued in the closed example. -/
def parseInnerW (s : String) : Option QRPayload :=
  if s = "PAY" then some (issuedPayload userW "fp" 5) else none

theorem issue_then_verify_valid_witness :
    parseEnvW (generateSecureQRData hashW sPW sEW userW "fp" 5) =
        some (issuedEnvelope hashW sPW userW "fp" 5) ∧
      parseInnerW (sPW (issuedPayload userW "fp" 5)) = some (issuedPayload userW "fp" 5) ∧
      sPW (issuedPayload userW "fp" 5) ≠ "" ∧
      hashW (sPW (issuedPayload userW "fp" 5) ++ qrSecret) ≠ "" ∧
      (0 : Int) < 5 ∧
      verifyQRData hashW parseEnvW parseInnerW 5
          (generateSecureQRData hashW sPW sEW userW "fp" 5) =
        .valid (issuedPayload userW "fp" 5) :=
  ⟨by decide, by decide, by decide, by decide, by decide,
    issue_then_verify_valid hashW parseEnvW parseInnerW sPW sEW userW "fp" 5 (by decide)
      (by decide) (by decide) (by decide) (by decide)⟩

/-- A concrete envelope whose `data` was altered after signing. -/
def envT : Envelope :=
  { data := some "EVIL", signature := some (hashW ("GOOD" ++ qrSecret)), timestamp := some 10 }

/-- A concrete envelope parse oracle recognising only `envT`. -/
def parseEnvT (s : String) : Option Envelope := if s = "QRT" then some envT else none

/-- A concrete stale envelope (issued at 1 ms, checked far later). -/
def envE : Envelope :=
  { data := some "D", signature := some "BOGUS-SIGNATURE", timestamp := some 1 }

/-- A concrete envelope parse oracle recognising only `envE`. -/
def parseEnvE (s : String) : Option Envelope := if s = "QRE" then some envE else none

/-- C2: an envelope whose `data` differs from the (unique, by injectivity of
the digest on the relevant inputs) preimage of its `signature` is rejected
as "QR code tampered", provided the envelope is well-formed and inside the
24-hour hard window. -/
theorem tampered_data_rejected (hash : String → String)
    (parseEnv : String → Option Envelope) (parseInner : String → Option QRPayload)
    (now : Int) (qr : String) (env : Envelope) (d sg : String) (ts : Int) (orig : String)
    (hparse : parseEnv qr = some env)
    (hd : env.data = some d) (hs : env.signature = some sg) (ht : env.timestamp = some ts)
    (hd0 : d ≠ "") (hs0 : sg ≠ "") (ht0 : ts ≠ 0)
    (hwin : now - ts ≤ hardWindowMs)
    (hsig : sg = hash (orig ++ qrSecret))
    (hne : d ≠ orig)
    (hinj : hash (d ++ qrSecret) = hash (orig ++ qrSecret) → d = orig) :
    verifyQRData hash parseEnv parseInner now qr = .invalid "QR code tampered" := by
  have b1 : (d != "") = true := bne_iff_ne.mpr hd0
  have b2 : (sg != "") = true := bne_iff_ne.mpr hs0
  have b3 : (ts != 0) = true := bne_iff_ne.mpr ht0
  simp only [hardWindowMs] at hwin
  rw [verifyQRData, hparse]
  simp only [hd, hs, ht, truthyStr, truthyInt, Option.getD_some, hardWindowMs]
  rw [if_neg, if_neg, if_pos]
  · exact bne_iff_ne.mpr fun hEq => hne (hinj (hEq.symm.trans hsig))
  · omega
  · simp [b1, b2, b3]

theorem tampered_data_rejected_witness :
    parseEnvT "QRT" = some envT ∧
      envT.data = some "EVIL" ∧
      envT.signature = some (hashW ("GOOD" ++ qrSecret)) ∧
      envT.timestamp = some 10 ∧
      ("EVIL" : String) ≠ "" ∧
      hashW ("GOOD" ++ qrSecret) ≠ "" ∧
      (10 : Int) ≠ 0 ∧
      (20 : Int) - 10 ≤ hardWindowMs ∧
      ("EVIL" : String) ≠ "GOOD" ∧
      verifyQRData hashW parseEnvT parseInnerW 20 "QRT" = .invalid "QR code tampered" :=
  ⟨by decide, by decide, by decide, by decide, by decide, by decide, by decide, by decide,
    by decide,
    tampered_data_rejected hashW parseEnvT parseInnerW 20 "QRT" envT "EVIL"
      (hashW ("GOOD" ++ qrSecret)) 10 "GOOD" (by decide) (by decide) (by decide) (by decide)
      (by decide) (by decide) (by decide) (by decide) rfl (by decide) (by decide)⟩

/-- C3: once the envelope is well-formed, an `issuedAt` more than 24 hours
in the past yields "QR code expired" for any signature value whatsoever —
the hard-window check runs before signature verification. -/
theorem hard_window_precedes_signature (hash : String → String)
    (parseEnv : String → Option Envelope) (parseInner : String → Option QRPayload)
    (now : Int) (qr : String) (env : Envelope) (d sg : String) (ts : Int)
    (hparse : parseEnv qr = some env)
    (hd : env.data = some d) (hs : env.signature = some sg) (ht : env.timestamp = some ts)
    (hd0 : d ≠ "") (hs0 : sg ≠ "") (ht0 : ts ≠ 0)
    (hexp : now - ts > hardWindowMs) :
    verifyQRData hash parseEnv parseInner now qr = .invalid "QR code expired" := by
  have b1 : (d != "") = true := bne_iff_ne.mpr hd0
  have b2 : (sg != "") = true := bne_iff_ne.mpr hs0
  have b3 : (ts != 0) = true := bne_iff_ne.mpr ht0
  simp only [hardWindowMs] at hexp
  rw [verifyQRData, hparse]
  simp only [hd, hs, ht, truthyStr, truthyInt, Option.getD_some, hardWindowMs]
  rw [if_neg, if_pos]
  · omega
  · simp [b1, b2, b3]

theorem hard_window_precedes_signature_witness :
    parseEnvE "QRE" = some envE ∧
      envE.data = some "D" ∧
      envE.signature = some "BOGUS-SIGNATURE" ∧
      envE.timestamp = some 1 ∧
      ("D" : String) ≠ "" ∧
      ("BOGUS-SIGNATURE" : String) ≠ "" ∧
      (1 : Int) ≠ 0 ∧
      (100000000 : Int) - 1 > hardWindowMs ∧
      verifyQRData hashW parseEnvE parseInnerW 100000000 "QRE" = .invalid "QR code expired" :=
  ⟨by decide, by decide, by decide, by decide, by decide, by decide, by decide, by decide,
    hard_window_precedes_signature hashW parseEnvE parseInnerW 100000000 "QRE" envE "D"
      "BOGUS-SIGNATURE" 1 (by decide) (by decide) (by decide) (by decide) (by decide)
      (by decide) (by decide) (by decide)⟩

/-- A concrete payload whose `expires_at` is the falsy number 0. -/
def payZ : QRPayload :=
  { user_id := some 7, email := some "e@x.com", name := some "E", access_level := some "General",
    allowed_areas := some ["Main Arena"], timestamp := some 10, expires_at := some 0,
    device_fingerprint := some "fp", version := some "2.0" }

/-- A concrete inner-payload parse oracle recognising only `payZ`. -/
def parseInnerZ (s : String) : Option QRPayload := if s = "PZ" then some payZ else none

/-- A concrete, correctly signed envelope carrying `payZ`. -/
def envZ : Envelope :=
  { data := some "PZ", signature := some (hashW ("PZ" ++ qrSecret)), timestamp := some 10 }

/-- A concrete envelope parse oracle recognising only `envZ`. -/
def parseEnvZ (s : String) : Option Envelope := if s = "QZ" then some envZ else none

/-- C4 counterexample: a correctly signed, in-window envelope whose inner
payload has `expires_at = 0`, strictly earlier than the current time 20,
is nevertheless accepted as `Valid` — the code's truthiness guard skips
the soft-expiry comparison when `expires_at` is 0. -/
theorem soft_expiry_zero_counterexample :
    parseEnvZ "QZ" = some envZ ∧
      envZ.data = some "PZ" ∧
      envZ.signature = some (hashW ("PZ" ++ qrSecret)) ∧
      envZ.timestamp = some 10 ∧
      (20 : Int) - 10 ≤ hardWindowMs ∧
      parseInnerZ "PZ" = some payZ ∧
      payZ.expires_at = some 0 ∧
      (0 : Int) < 20 ∧
      verifyQRData hashW parseEnvZ parseInnerZ 20 "QZ" = .valid payZ := by
  decide

/-- C4 (amended): every issued payload has `expires_at` exactly one hour
(3,600,000 ms) after its `timestamp`; and a correctly signed, in-window
envelope whose inner payload carries a NON-ZERO `expires_at` strictly
earlier than the current time is rejected as "QR code expired" (soft
window).  The non-zero proviso is forced by `soft_expiry_zero_counterexample`. -/
theorem expiry_scheme_amended :
    (∀ (user : User) (fp : String) (now : Int),
        (issuedPayload user fp now).timestamp = some now ∧
          (issuedPayload user fp now).expires_at = some (now + 60 * 60 * 1000)) ∧
    (∀ (hash : String → String) (parseEnv : String → Option Envelope)
        (parseInner : String → Option QRPayload) (now : Int) (qr : String) (env : Envelope)
        (d sg : String) (ts : Int) (pay : QRPayload) (e : Int),
        parseEnv qr = some env → env.data = some d → env.signature = some sg →
        env.timestamp = some ts → d ≠ "" → sg ≠ "" → ts ≠ 0 →
        now - ts ≤ hardWindowMs → sg = hash (d ++ qrSecret) →
        parseInner d = some pay → pay.expires_at = some e → e ≠ 0 → e < now →
        verifyQRData hash parseEnv parseInner now qr = .invalid "QR code expired") := by
  constructor
  · intro user fp now
    exact ⟨rfl, rfl⟩
  · intro hash parseEnv parseInner now qr env d sg ts pay e hparse hd hs ht hd0 hs0 ht0 hwin
      hsig hIn he he0 hlt
    have b1 : (d != "") = true := bne_iff_ne.mpr hd0
    have b2 : (sg != "") = true := bne_iff_ne.mpr hs0
    have b3 : (ts != 0) = true := bne_iff_ne.mpr ht0
    simp only [hardWindowMs] at hwin
    rw [verifyQRData, hparse]
    simp only [hd, hs, ht, truthyStr, truthyInt, Option.getD_some, hardWindowMs]
    rw [if_neg, if_neg, if_neg]
    · simp only [hIn, he, truthyInt, Option.getD_some]
      rw [if_pos]
      simp only [Bool.and_eq_true, bne_iff_ne, ne_eq, decide_eq_true_eq]
      exact ⟨he0, by omega⟩
    · rw [hsig]
      simp
    · omega
    · simp [b1, b2, b3]

/-- A concrete payload that is soft-expired with a truthy `expires_at`. -/
def payS : QRPayload :=
  { user_id := some 8, email := some "s@x.com", name := some "S", access_level := some "Staff",
    allowed_areas := some ["Staff Area"], timestamp := some 10, expires_at := some 3,
    device_fingerprint := some "fp", version := some "2.0" }

/-- A concrete inner-payload parse oracle recognising only `payS`. -/
def parseInnerS (s : String) : Option QRPayload := if s = "PS" then some payS else none

/-- A concrete, correctly signed envelope carrying `payS`. -/
def envS : Envelope :=
  { data := some "PS", signature := some (hashW ("PS" ++ qrSecret)), timestamp := some 10 }

/-- A concrete envelope parse oracle recognising only `envS`. -/
def parseEnvS (s : String) : Option Envelope := if s = "QS" then some envS else none

theorem expiry_scheme_amended_witness :
    (issuedPayload userW "fp" 5).timestamp = some 5 ∧
      (issuedPayload userW "fp" 5).expires_at = some (5 + 60 * 60 * 1000) ∧
      parseEnvS "QS" = some envS ∧
      (20 : Int) - 10 ≤ hardWindowMs ∧
      parseInnerS "PS" = some payS ∧
      payS.expires_at = some 3 ∧
      (3 : Int) ≠ 0 ∧
      (3 : Int) < 20 ∧
      verifyQRData hashW parseEnvS parseInnerS 20 "QS" = .invalid "QR code expired" :=
  ⟨(expiry_scheme_amended.1 userW "fp" 5).1, (expiry_scheme_amended.1 userW "fp" 5).2,
    by decide, by decide, by decide, by decide, by decide, by decide,
    expiry_scheme_amended.2 hashW parseEnvS parseInnerS 20 "QS" envS "PS"
      (hashW ("PS" ++ qrSecret)) 10 payS 3 (by decide) (by decide) (by decide) (by decide)
      (by decide) (by decide) (by decide) (by decide) rfl (by decide) (by decide) (by decide)
      (by decide)⟩

/-- C5: verification is total and tagged: every run returns `Valid` or
`Invalid` with one of the four reason strings; an unparseable envelope
yields "Invalid QR data"; and an envelope that passes every
envelope-level check but whose inner payload fails to parse also yields
"Invalid QR data". -/
theorem verify_total_tagged (hash : String → String) (parseEnv : String → Option Envelope)
    (parseInner : String → Option QRPayload) (now : Int) (qr : String) :
    ((∃ p, verifyQRData hash parseEnv parseInner now qr = .valid p) ∨
        verifyQRData hash parseEnv parseInner now qr = .invalid "Invalid QR format" ∨
        verifyQRData hash parseEnv parseInner now qr = .invalid "QR code expired" ∨
        verifyQRData hash parseEnv parseInner now qr = .invalid "QR code tampered" ∨
        verifyQRData hash parseEnv parseInner now qr = .invalid "Invalid QR data") ∧
    (parseEnv qr = none →
        verifyQRData hash parseEnv parseInner now qr = .invalid "Invalid QR data") ∧
    (∀ (env : Envelope) (d : String),
        parseEnv qr = some env → env.data = some d →
        truthyStr env.data = true → truthyStr env.signature = true →
        truthyInt env.timestamp = true →
        ¬(now - env.timestamp.getD 0 > hardWindowMs) →
        env.signature.getD "" = hash (d ++ qrSecret) →
        parseInner d = none →
        verifyQRData hash parseEnv parseInner now qr = .invalid "Invalid QR data") := by
  refine ⟨?_, ?_, ?_⟩
  · rw [verifyQRData]
    cases hpe : parseEnv qr with
    | none => exact Or.inr (Or.inr (Or.inr (Or.inr rfl)))
    | some env =>
      dsimp only
      by_cases h1 : (!(truthyStr env.data && truthyStr env.signature &&
          truthyInt env.timestamp)) = true
      · rw [if_pos h1]
        exact Or.inr (Or.inl rfl)
      · rw [if_neg h1]
        by_cases h2 : now - env.timestamp.getD 0 > hardWindowMs
        · rw [if_pos h2]
          exact Or.inr (Or.inr (Or.inl rfl))
        · rw [if_neg h2]
          by_cases h3 : (env.signature.getD "" != hash (env.data.getD "" ++ qrSecret)) = true
          · rw [if_pos h3]
            exact Or.inr (Or.inr (Or.inr (Or.inl rfl)))
          · rw [if_neg h3]
            cases hpi : parseInner (env.data.getD "") with
            | none => exact Or.inr (Or.inr (Or.inr (Or.inr rfl)))
            | some payload =>
              dsimp only
              by_cases h4 : (truthyInt payload.expires_at &&
                  decide (now > payload.expires_at.getD 0)) = true
              · rw [if_pos h4]
                exact Or.inr (Or.inr (Or.inl rfl))
              · rw [if_neg h4]
                exact Or.inl ⟨payload, rfl⟩
  · intro h
    rw [verifyQRData, h]
  · intro env d hpe hd t1 t2 t3 hwin hsg hpi
    rw [verifyQRData, hpe]
    dsimp only
    rw [if_neg, if_neg, if_neg]
    · simp only [hd, Option.getD_some] at hpi ⊢
      simp only [hpi]
    · simp only [hd, Option.getD_some] at hsg ⊢
      rw [hsg]
      simp
    · exact hwin
    · simp [t1, t2, t3]

/-- An envelope parse oracle that always fails, modelling a non-JSON QR
string. -/
def parseEnvN (_ : String) : Option Envelope := none

theorem verify_total_tagged_witness :
    verifyQRData hashW parseEnvN parseInnerW 5 "not json at all" = .invalid "Invalid QR data" :=
  (verify_total_tagged hashW parseEnvN parseInnerW 5 "not json at all").2.1 rfl

/-- C9: a correctly signed, in-window envelope whose inner payload lacks
`expires_at`, or carries the falsy value 0, skips the soft-expiry check
entirely and is accepted as `Valid`, however large `now` is within the
hard window. -/
theorem falsy_expiry_skips_soft_check (hash : String → String)
    (parseEnv : String → Option Envelope) (parseInner : String → Option QRPayload)
    (now : Int) (qr : String) (env : Envelope) (d sg : String) (ts : Int) (pay : QRPayload)
    (hparse : parseEnv qr = some env)
    (hd : env.data = some d) (hs : env.signature = some sg) (ht : env.timestamp = some ts)
    (hd0 : d ≠ "") (hs0 : sg ≠ "") (ht0 : ts ≠ 0)
    (hwin : now - ts ≤ hardWindowMs)
    (hsig : sg = hash (d ++ qrSecret))
    (hIn : parseInner d = some pay)
    (hfalsy : pay.expires_at = none ∨ pay.expires_at = some 0) :
    verifyQRData hash parseEnv parseInner now qr = .valid pay := by
  have b1 : (d != "") = true := bne_iff_ne.mpr hd0
  have b2 : (sg != "") = true := bne_iff_ne.mpr hs0
  have b3 : (ts != 0) = true := bne_iff_ne.mpr ht0
  simp only [hardWindowMs] at hwin
  rw [verifyQRData, hparse]
  simp only [hd, hs, ht, truthyStr, truthyInt, Option.getD_some, hardWindowMs]
  rw [if_neg, if_neg, if_neg]
  · simp only [hIn]
    rw [if_neg]
    rcases hfalsy with h | h <;> rw [h] <;> simp [truthyInt]
  · rw [hsig]
    simp
  · omega
  · simp [b1, b2, b3]

/-- A concrete payload with no `expires_at` field at all. -/
def payN : QRPayload :=
  { user_id := some 9, email := some "n@x.com", name := some "N", access_level := some "VIP",
    allowed_areas := some ["VIP Lounge"], timestamp := some 10, expires_at := none,
    device_fingerprint := some "fp", version := some "2.0" }

/-- A concrete inner-payload parse oracle recognising only `payN`. -/
def parseInnerN (s : String) : Option QRPayload := if s = "PN" then some payN else none

/-- A concrete, correctly signed envelope carrying `payN`. -/
def envN : Envelope :=
  { data := some "PN", signature := some (hashW ("PN" ++ qrSecret)), timestamp := some 10 }

/-- A concrete envelope parse oracle recognising only `envN`. -/
def parseEnvN9 (s : String) : Option Envelope := if s = "QN" then some envN else none

theorem falsy_expiry_skips_soft_check_witness :
    parseEnvN9 "QN" = some envN ∧
      (86400000 : Int) - 10 ≤ hardWindowMs ∧
      parseInnerN "PN" = some payN ∧
      payN.expires_at = none ∧
      verifyQRData hashW parseEnvN9 parseInnerN 86400000 "QN" = .valid payN :=
  ⟨by decide, by decide, by decide, by decide,
    falsy_expiry_skips_soft_check hashW parseEnvN9 parseInnerN 86400000 "QN" envN "PN"
      (hashW ("PN" ++ qrSecret)) 10 payN (by decide) (by decide) (by decide) (by decide)
      (by decide) (by decide) (by decide) (by decide) rfl (by decide) (Or.inl (by decide))⟩

/-! The record store: the `users` table and the operations over it. -/

/-- A stored row of the `users` table: `allowed_areas` holds JSON text and
`is_active` an INTEGER (default 1). -/
structure Row where
  id : Int
  email : String
  name : String
  phone : String
  access_level : String
  allowed_areas : String
  is_active : Int
deriving DecidableEq, Repr

/-- How the read paths materialise a row into a `User`: the area list is
parsed back from the JSON text column (`parseAreas` models `JSON.parse`),
and `is_active` is the comparison `row.is_active === 1`. -/
def rowToUser (parseAreas : String → List String) (r : Row) : User :=
  { id := r.id
    email := r.email
    name := r.name
    phone := r.phone
    access_level := r.access_level
    allowed_areas := parseAreas r.allowed_areas
    is_active := r.is_active == 1 }

/-- `getUserByEmail`: `SELECT * FROM users WHERE email = ? AND is_active = 1`
taking the first matching row, or null. -/
def getUserByEmail (parseAreas : String → List String) (db : List Row)
    (email : String) : Option User :=
  (db.find? (fun r => r.email == email && r.is_active == 1)).map (rowToUser parseAreas)

/-- `getAllUsers`: `SELECT * FROM users WHERE is_active = 1`, each row
materialised. -/
def getAllUsers (parseAreas : String → List String) (db : List Row) : List User :=
  (db.filter (fun r => r.is_active == 1)).map (rowToUser parseAreas)

/-- The rowid SQLite assigns a fresh insert: one past the largest id. -/
def nextRowId (db : List Row) : Int := (db.map Row.id).foldr max 0 + 1

/-- The record shape handed to `insertUser` (a `User` without `id`,
`Omit<User, 'id'>` in the source). -/
structure SeedUser where
  email : String
  name : String
  phone : String
  access_level : String
  allowed_areas : List String
  is_active : Bool
deriving DecidableEq, Repr

/-- `insertUser`: `INSERT OR IGNORE` under the UNIQUE email constraint — a
conflict with any stored row, active or not, makes the insert a silent
no-op.  `serializeAreas` models `JSON.stringify` on the area list; the
boolean active flag is stored as 1 or 0. -/
def insertUser (serializeAreas : List String → String) (db : List Row) (u : SeedUser) :
    List Row :=
  if db.any (fun r => r.email == u.email) then db
  else
    db ++ [{ id := nextRowId db
             email := u.email
             name := u.name
             phone := u.phone
             access_level := u.access_level
             allowed_areas := serializeAreas u.allowed_areas
             is_active := if u.is_active then 1 else 0 }]

/-- C7: both read paths surface only active records: any `User` returned by
`getUserByEmail`, and every element of `getAllUsers`, has `is_active = true`
— a row stored with `is_active ≠ 1` is filtered out by the `WHERE`
clause before it can be materialised. -/
theorem read_paths_only_active (parseAreas : String → List String) (db : List Row)
    (email : String) :
    (∀ u : User, getUserByEmail parseAreas db email = some u → u.is_active = true) ∧
    (∀ u ∈ getAllUsers parseAreas db, u.is_active = true) := by
  constructor
  · intro u hu
    rw [getUserByEmail] at hu
    rcases Option.map_eq_some'.mp hu with ⟨r, hf, rfl⟩
    have hp := List.find?_some hf
    simp only [Bool.and_eq_true] at hp
    simpa [rowToUser] using hp.2
  · intro u hu
    rw [getAllUsers] at hu
    rcases List.mem_map.mp hu with ⟨r, hr, rfl⟩
    have hp := (List.mem_filter.mp hr).2
    simpa [rowToUser] using hp

/-- A concrete inactive row. -/
def rowI : Row :=
  { id := 2, email := "gone@x.com", name := "Gone", phone := "0", access_level := "General",
    allowed_areas := "[]", is_active := 0 }

/-- A concrete active row. -/
def rowA : Row :=
  { id := 1, email := "a@x.com", name := "A", phone := "1", access_level := "General",
    allowed_areas := "[]", is_active := 1 }

/-- A concrete stand-in for parsing the stored JSON area text. -/
def parseAreasW (_ : String) : List String := []

/-- A concrete table holding one inactive and one active row. -/
def dbW : List Row := [rowI, rowA]

theorem read_paths_only_active_witness :
    getUserByEmail parseAreasW dbW "a@x.com" = some (rowToUser parseAreasW rowA) ∧
      (rowToUser parseAreasW rowA).is_active = true ∧
      rowToUser parseAreasW rowA ∈ getAllUsers parseAreasW dbW :=
  ⟨by decide,
    (read_paths_only_active parseAreasW dbW "a@x.com").1 (rowToUser parseAreasW rowA)
      (by decide),
    by decide⟩

/-- C8: starting from any table state satisfying the UNIQUE-email
constraint (at most one row carries the inserted email), inserting a record
leaves exactly one row with that email, and inserting it a second time is a
silent no-op on the whole table. -/
theorem insert_idempotent (serializeAreas : List String → String) (db : List Row)
    (u : SeedUser)
    (huniq : (db.filter (fun r => r.email == u.email)).length ≤ 1) :
    ((insertUser serializeAreas db u).filter (fun r => r.email == u.email)).length = 1 ∧
    insertUser serializeAreas (insertUser serializeAreas db u) u =
      insertUser serializeAreas db u := by
  by_cases hmem : db.any (fun r => r.email == u.email) = true
  · rw [insertUser, if_pos hmem]
    rcases List.any_eq_true.mp hmem with ⟨r, hr, hpr⟩
    have hmemf : r ∈ db.filter (fun r => r.email == u.email) :=
      List.mem_filter.mpr ⟨hr, hpr⟩
    have hpos : 0 < (db.filter (fun r => r.email == u.email)).length :=
      List.length_pos.mpr (List.ne_nil_of_mem hmemf)
    exact ⟨by omega, by rw [insertUser, if_pos hmem]⟩
  · rw [insertUser, if_neg hmem]
    have hnone : ∀ r ∈ db, ¬(r.email == u.email) = true := by
      intro r hr hcon
      exact hmem (List.any_eq_true.mpr ⟨r, hr, hcon⟩)
    constructor
    · rw [List.filter_append]
      have h0 : db.filter (fun r => r.email == u.email) = [] :=
        List.filter_eq_nil_iff.mpr hnone
      rw [h0]
      simp
    · rw [insertUser, if_pos]
      rw [List.any_append]
      simp

/-- A concrete stand-in for serializing an area list to column text. -/
def serializeAreasW (_ : List String) : String := "[]"

/-- A concrete seed record. -/
def seedW : SeedUser :=
  { email := "seed@x.com", name := "Seed", phone := "2", access_level := "Staff",
    allowed_areas := ["Staff Area"], is_active := true }

theorem insert_idempotent_witness :
    (([] : List Row).filter (fun r => r.email == seedW.email)).length ≤ 1 ∧
      ((insertUser serializeAreasW [] seedW).filter
          (fun r => r.email == seedW.email)).length = 1 ∧
      insertUser serializeAreasW (insertUser serializeAreasW [] seedW) seedW =
        insertUser serializeAreasW [] seedW :=
  ⟨by decide, (insert_idempotent serializeAreasW [] seedW (by decide)).1,
    (insert_idempotent serializeAreasW [] seedW (by decide)).2⟩

/-! Session bookkeeping over the platform secret store, modelled as a
key-value association list. -/

/-- `SecureStore.setItemAsync`: overwrite the value stored under a key. -/
def setItemAsync (store : List (String × String)) (k v : String) :
    List (String × String) :=
  (k, v) :: store.filter (fun p => p.1 != k)

/-- `SecureStore.getItemAsync`: the value stored under a key, if any. -/
def getItemAsync (store : List (String × String)) (k : String) : Option String :=
  (store.find? (fun p => p.1 == k)).map Prod.snd

/-- `storeUserCredentials`: writes `rememberedEmail` and `lastLoginTime`
only when `rememberMe` is true; otherwise the body is skipped entirely. -/
def storeUserCredentials (store : List (String × String)) (email : String) (now : Int)
    (rememberMe : Bool) : List (String × String) :=
  if rememberMe then
    setItemAsync (setItemAsync store "rememberedEmail" email) "lastLoginTime" (toString now)
  else store

/-- `getStoredEmail`: read back the remembered email. -/
def getStoredEmail (store : List (String × String)) : Option String :=
  getItemAsync store "rememberedEmail"

/-- `clearStoredCredentials`: delete both bookkeeping keys. -/
def clearStoredCredentials (store : List (String × String)) : List (String × String) :=
  (store.filter (fun p => p.1 != "rememberedEmail")).filter (fun p => p.1 != "lastLoginTime")

/-- C10: with `rememberMe = false` the credential-store call is a complete
no-op on the secret store: the store is unchanged, so in particular the
new email and timestamp are not written and any previously remembered
email or last-login time survives untouched. -/
theorem remember_false_frame (store : List (String × String)) (email : String) (now : Int) :
    storeUserCredentials store email now false = store ∧
    getStoredEmail (storeUserCredentials store email now false) = getStoredEmail store ∧
    getItemAsync (storeUserCredentials store email now false) "lastLoginTime" =
      getItemAsync store "lastLoginTime" :=
  ⟨rfl, rfl, rfl⟩

/-! The obfuscation scheme (`encryptData` / `decryptData`).  JavaScript's
`String.prototype.split` with a non-empty string separator is embedded over
character lists; the base64-of-UTF-8 text codec
(`btoa(unescape(encodeURIComponent(x)))` and its inverse) and the hex
digest are abstracted as functions, as before. -/

/-- Fuelled worker for the split: scan left to right, cutting at each
leftmost occurrence of `sep`.  Each step consumes at least one character,
so fuel `s.length` is always enough. -/
def jsSplitAux (sep : List Char) : Nat → List Char → List (List Char)
  | _, [] => [[]]
  | 0, s => [s]
  | fuel + 1, c :: rest =>
    if sep <+: (c :: rest) ∧ sep ≠ [] then
      [] :: jsSplitAux sep fuel ((c :: rest).drop sep.length)
    else
      match jsSplitAux sep fuel rest with
      | [] => [[c]]
      | x :: xs => (c :: x) :: xs

/-- JavaScript `s.split(sep)` for non-empty `sep`, over character lists.
(For empty `sep` this returns `[s]`; the repository only splits on the
non-empty separators `"::"` and `"::" + key`.) -/
def jsSplit (sep s : List Char) : List (List Char) := jsSplitAux sep s.length s

/-- The separator `"::"`. -/
def obfSep : List Char := [':', ':']

/-- The fixed application constant `demo_encryption_key_2024`. -/
def obfConst : List Char := "demo_encryption_key_2024".toList

/-- `encryptData`: derive the key from the constant and the salt, append
`"::" + key.substring(0, 32)` to the plaintext, text-encode, and prefix
the salt and separator.  `hash` models the SHA-256 hex digest and `b64e`
the reversible text encoding. -/
def encryptData (hash b64e : List Char → List Char) (salt64 data : List Char) : List Char :=
  salt64 ++ obfSep ++ b64e (data ++ obfSep ++ (hash (obfConst ++ salt64)).take 32)

/-- `decryptData`: split off the salt, re-derive the key, decode, then keep
what precedes the first occurrence of `"::" + key.substring(0, 32)`.
`b64d` models the inverse text decoding. -/
def decryptData (hash b64d : List Char → List Char) (s : List Char) : List Char :=
  let key := hash (obfConst ++ (jsSplit obfSep s).getD 0 [])
  let decryptedWithKey := b64d ((jsSplit obfSep s).getD 1 [])
  (jsSplit (obfSep ++ key.take 32) decryptedWithKey).getD 0 []

theorem jsSplitAux_nil (sep : List Char) (fuel : Nat) : jsSplitAux sep fuel [] = [[]] := by
  cases fuel <;> rfl

theorem jsSplitAux_fuel_irrel (sep : List Char) :
    ∀ (f1 : Nat) (f2 : Nat) (s : List Char), s.length ≤ f1 → s.length ≤ f2 →
      jsSplitAux sep f1 s = jsSplitAux sep f2 s := by
  intro f1
  induction f1 with
  | zero =>
    intro f2 s h1 h2
    have : s = [] := List.eq_nil_of_length_eq_zero (Nat.le_zero.mp h1)
    subst this
    rw [jsSplitAux_nil, jsSplitAux_nil]
  | succ n ih =>
    intro f2 s h1 h2
    cases s with
    | nil => rw [jsSplitAux_nil, jsSplitAux_nil]
    | cons c rest =>
      cases f2 with
      | zero => simp at h2
      | succ m =>
        rw [jsSplitAux, jsSplitAux]
        by_cases hc : sep <+: (c :: rest) ∧ sep ≠ []
        · rw [if_pos hc, if_pos hc]
          have hlen : ((c :: rest).drop sep.length).length ≤ n := by
            have hs1 : 0 < sep.length := List.length_pos.mpr hc.2
            simp only [List.length_drop, List.length_cons]
            simp only [List.length_cons] at h1
            omega
          have hlen2 : ((c :: rest).drop sep.length).length ≤ m := by
            have hs1 : 0 < sep.length := List.length_pos.mpr hc.2
            simp only [List.length_drop, List.length_cons]
            simp only [List.length_cons] at h2
            omega
          rw [ih m ((c :: rest).drop sep.length) hlen hlen2]
        · rw [if_neg hc, if_neg hc]
          have hlen : rest.length ≤ n := by
            simp only [List.length_cons] at h1
            omega
          have hlen2 : rest.length ≤ m := by
            simp only [List.length_cons] at h2
            omega
          rw [ih m rest hlen hlen2]

/-- Unfolding step of `jsSplit` at a leftmost separator occurrence. -/
theorem jsSplit_cons_of_match (sep s : List Char) (hsep : sep ≠ []) (hne : s ≠ [])
    (hm : sep <+: s) : jsSplit sep s = [] :: jsSplit sep (s.drop sep.length) := by
  cases s with
  | nil => exact absurd rfl hne
  | cons c rest =>
    rw [jsSplit, jsSplit]
    simp only [List.length_cons]
    rw [jsSplitAux, if_pos ⟨hm, hsep⟩]
    have hs1 : 0 < sep.length := List.length_pos.mpr hsep
    have h1 : ((c :: rest).drop sep.length).length ≤ rest.length := by
      simp only [List.length_drop, List.length_cons]
      omega
    rw [jsSplitAux_fuel_irrel sep rest.length ((c :: rest).drop sep.length).length
      ((c :: rest).drop sep.length) h1 (le_refl _)]

/-- Unfolding step of `jsSplit` where the separator does not occur at the
head position. -/
theorem jsSplit_cons_of_no_match (sep : List Char) (c : Char) (rest : List Char)
    (hm : ¬ sep <+: (c :: rest)) :
    jsSplit sep (c :: rest) =
      match jsSplit sep rest with
      | [] => [[c]]
      | x :: xs => (c :: x) :: xs := by
  rw [jsSplit, jsSplit]
  simp only [List.length_cons]
  rw [jsSplitAux, if_neg (fun hc => hm hc.1)]

/-- A cons list whose head is absent from `s` is never a prefix of `s`. -/
theorem no_prefix_of_head_not_mem (c : Char) (t s : List Char) (h : c ∉ s) :
    ¬ (c :: t) <+: s := by
  intro hp
  cases s with
  | nil =>
    simp at hp
  | cons d s' =>
    rw [List.cons_prefix_cons] at hp
    exact h (by rw [hp.1]; exact List.mem_cons_self d s')

/-- If the separator is nowhere a prefix of any suffix of `s`, the split
returns the single chunk `s`. -/
theorem jsSplit_no_occurrence (sep s : List Char)
    (h : ∀ i, ¬ sep <+: s.drop i) : jsSplit sep s = [s] := by
  induction s with
  | nil =>
    rw [jsSplit, jsSplitAux_nil]
  | cons c rest ih =>
    rw [jsSplit_cons_of_no_match sep c rest (h 0)]
    rw [ih (fun i => h (i + 1))]

/-- If the separator does not occur before position `a.length`, the split of
`a ++ sep ++ b` is `a` followed by the split of `b`. -/
theorem jsSplit_boundary (sep a b : List Char) (hsep : sep ≠ [])
    (hocc : ∀ i, i < a.length → ¬ sep <+: (a ++ (sep ++ b)).drop i) :
    jsSplit sep (a ++ (sep ++ b)) = a :: jsSplit sep b := by
  induction a with
  | nil =>
    simp only [List.nil_append]
    rw [jsSplit_cons_of_match sep (sep ++ b) hsep
      (by cases sep with | nil => exact absurd rfl hsep | cons s0 st => simp)
      (List.prefix_append sep b)]
    rw [List.drop_left]
  | cons c a' ih =>
    have hstep : ((c :: a') ++ (sep ++ b)) = c :: (a' ++ (sep ++ b)) := rfl
    rw [hstep, jsSplit_cons_of_no_match sep c (a' ++ (sep ++ b)) (hocc 0 (by simp))]
    rw [ih (fun i hi => hocc (i + 1) (by simp only [List.length_cons]; omega))]

/-- No occurrence of a colon-headed separator starts strictly inside a
colon-free left part. -/
theorem no_occ_in_colon_free_part (sep' t u : List Char) (hu : ':' ∉ u) :
    ∀ i, i < u.length → ¬ (':' :: sep') <+: (u ++ t).drop i := by
  intro i hi hp
  have hne : u.drop i ≠ [] := by
    intro hnil
    rw [List.drop_eq_nil_iff] at hnil
    omega
  obtain ⟨d, w, hd⟩ := List.exists_cons_of_ne_nil hne
  have hdu : d ∈ u := List.drop_subset i u (by rw [hd]; exact List.mem_cons_self d w)
  have hsplit : (u ++ t).drop i = d :: (w ++ t) := by
    rw [List.drop_append_eq_append_drop, Nat.sub_eq_zero_of_le (le_of_lt hi),
      List.drop_zero, hd, List.cons_append]
  rw [hsplit, List.cons_prefix_cons] at hp
  exact hu (by rw [hp.1]; exact hdu)

/-- The border argument: the pattern `"::" + key` (with `key` non-empty and
colon-free) cannot begin strictly inside `a` within `a ++ pattern ++ b`
unless it occurs inside `a` itself. -/
theorem no_early_occurrence (key a b : List Char) (hk : ':' ∉ key) (hk0 : key ≠ [])
    (hni : ¬ (':' :: ':' :: key) <:+: a) :
    ∀ i, i < a.length →
      ¬ (':' :: ':' :: key) <+: (a ++ ((':' :: ':' :: key) ++ b)).drop i := by
  intro i hi hpre
  rw [List.drop_append_eq_append_drop, Nat.sub_eq_zero_of_le (le_of_lt hi),
    List.drop_zero] at hpre
  by_cases hlen : (':' :: ':' :: key).length ≤ (a.drop i).length
  · have hpa : (':' :: ':' :: key) <+: a.drop i :=
      List.prefix_of_prefix_length_le hpre (List.prefix_append _ _) hlen
    exact hni (List.infix_iff_prefix_suffix.mpr ⟨a.drop i, hpa, List.drop_suffix i a⟩)
  · push_neg at hlen
    have hk1 : 1 ≤ (a.drop i).length := by
      rcases Nat.eq_zero_or_pos (a.drop i).length with h0 | h0
      · rw [List.length_drop] at h0
        omega
      · omega
    obtain ⟨r, hr⟩ := hpre
    have hdrop : (':' :: ':' :: key).drop (a.drop i).length ++ r =
        (':' :: ':' :: key) ++ b := by
      have h2 := congrArg (List.drop (a.drop i).length) hr
      rwa [List.drop_append_eq_append_drop, Nat.sub_eq_zero_of_le (le_of_lt hlen),
        List.drop_zero, List.drop_left] at h2
    have hborder : (':' :: ':' :: key).drop (a.drop i).length <+: (':' :: ':' :: key) :=
      List.prefix_of_prefix_length_le ⟨r, hdrop⟩ (List.prefix_append _ _)
        (by rw [List.length_drop]; omega)
    rcases Nat.lt_or_ge (a.drop i).length 2 with h2 | h2
    · have hone : (a.drop i).length = 1 := by omega
      rw [hone] at hborder
      simp only [List.drop_succ_cons, List.drop_zero] at hborder
      rw [List.cons_prefix_cons] at hborder
      obtain ⟨d, w, hdw⟩ := List.exists_cons_of_ne_nil hk0
      rw [hdw, List.cons_prefix_cons] at hborder
      exact hk (by rw [hdw, ← hborder.2.1]; exact List.mem_cons_self _ _)
    · obtain ⟨m, hm⟩ : ∃ m, (a.drop i).length = m + 2 := ⟨(a.drop i).length - 2, by omega⟩
      rw [hm] at hborder
      simp only [List.drop_succ_cons] at hborder
      have hmlt : m < key.length := by
        simp only [List.length_cons] at hlen
        omega
      have hne2 : key.drop m ≠ [] := by
        intro hnil
        rw [List.drop_eq_nil_iff] at hnil
        omega
      obtain ⟨d, w, hdw⟩ := List.exists_cons_of_ne_nil hne2
      have hdk : d ∈ key := List.drop_subset m key (by rw [hdw]; exact List.mem_cons_self d w)
      rw [hdw, List.cons_prefix_cons] at hborder
      exact hk (by rw [hborder.1] at hdk; exact hdk)

/-- C6 (amended): the obfuscation decode inverts the encode for every
plaintext in which the cut marker `"::" + key.substring(0, 32)` does not
occur as a substring.  The hypotheses are the modelled facts about the
platform primitives: the salt text and the text-encoded blob contain no
colon (both are base64), the derived key fragment is non-empty, colon-free
hex, and the text codec round-trips on the value encoded here.  The
substring proviso is forced by `obf_roundtrip_counterexample`. -/
theorem obf_roundtrip_amended (hash b64e b64d : List Char → List Char)
    (salt64 data : List Char)
    (hsalt : ':' ∉ salt64)
    (hkey : ':' ∉ (hash (obfConst ++ salt64)).take 32)
    (hkey0 : (hash (obfConst ++ salt64)).take 32 ≠ [])
    (henc : ':' ∉ b64e (data ++ obfSep ++ (hash (obfConst ++ salt64)).take 32))
    (hrt : b64d (b64e (data ++ obfSep ++ (hash (obfConst ++ salt64)).take 32)) =
      data ++ obfSep ++ (hash (obfConst ++ salt64)).take 32)
    (hni : ¬ (obfSep ++ (hash (obfConst ++ salt64)).take 32) <:+: data) :
    decryptData hash b64d (encryptData hash b64e salt64 data) = data := by
  have houter : jsSplit obfSep
      (salt64 ++ obfSep ++ b64e (data ++ obfSep ++ (hash (obfConst ++ salt64)).take 32)) =
      [salt64, b64e (data ++ obfSep ++ (hash (obfConst ++ salt64)).take 32)] := by
    rw [List.append_assoc]
    rw [jsSplit_boundary obfSep salt64 _ (by decide)
      (no_occ_in_colon_free_part [':'] _ salt64 hsalt)]
    rw [jsSplit_no_occurrence obfSep _
      (fun i => no_prefix_of_head_not_mem ':' [':'] _
        (fun hm => henc (List.drop_subset i _ hm)))]
  have hinner : jsSplit (obfSep ++ (hash (obfConst ++ salt64)).take 32)
      (data ++ obfSep ++ (hash (obfConst ++ salt64)).take 32) = [data, []] := by
    have hsep : obfSep ++ (hash (obfConst ++ salt64)).take 32 =
        ':' :: ':' :: (hash (obfConst ++ salt64)).take 32 := rfl
    have h2 : data ++ obfSep ++ (hash (obfConst ++ salt64)).take 32 =
        data ++ ((':' :: ':' :: (hash (obfConst ++ salt64)).take 32) ++ []) := by
      rw [List.append_nil, List.append_assoc, hsep]
    rw [hsep, h2, jsSplit_boundary _ data [] (by simp)
      (no_early_occurrence ((hash (obfConst ++ salt64)).take 32) data [] hkey hkey0
        (hsep ▸ hni))]
    rw [jsSplit]
    rw [jsSplitAux_nil]
  simp only [encryptData, decryptData, houter, List.getD_cons_zero, List.getD_cons_succ]
  rw [hrt, hinner]
  rfl

/-- A concrete 64-character hex digest value. -/
def hex64C : List Char :=
  "0123456789abcdef0123456789abcdef0123456789abcdef0123456789abcdef".toList

/-- A concrete stand-in for the hex digest over character lists. -/
def hashC (_ : List Char) : List Char := hex64C

/-- A concrete base64-looking salt (no colon). -/
def saltC : List Char := "QUJDRA".toList

/-- An ordinary plaintext, free of the cut marker. -/
def dataOkC : List Char := "hello world".toList

/-- A concrete stand-in for the colon-free text encoding. -/
def b64eC (_ : List Char) : List Char := ['X']

/-- A concrete text decoding inverting `b64eC` on the blob built from
`dataOkC`. -/
def b64dOkC (_ : List Char) : List Char := dataOkC ++ obfSep ++ hex64C.take 32

theorem obf_roundtrip_amended_witness :
    (':' ∉ saltC) ∧
      (':' ∉ (hashC (obfConst ++ saltC)).take 32) ∧
      ((hashC (obfConst ++ saltC)).take 32 ≠ []) ∧
      (':' ∉ b64eC (dataOkC ++ obfSep ++ (hashC (obfConst ++ saltC)).take 32)) ∧
      (b64dOkC (b64eC (dataOkC ++ obfSep ++ (hashC (obfConst ++ saltC)).take 32)) =
        dataOkC ++ obfSep ++ (hashC (obfConst ++ saltC)).take 32) ∧
      (¬ (obfSep ++ (hashC (obfConst ++ saltC)).take 32) <:+: dataOkC) ∧
      decryptData hashC b64dOkC (encryptData hashC b64eC saltC dataOkC) = dataOkC :=
  ⟨by decide, by decide, by decide, by decide, by decide, by decide,
    obf_roundtrip_amended hashC b64eC b64dOkC saltC dataOkC (by decide) (by decide)
      (by decide) (by decide) (by decide) (by decide)⟩

/-- The adversarial plaintext: exactly the cut marker `"::" + key32`. -/
def dataBadC : List Char := obfSep ++ hex64C.take 32

/-- A concrete text decoding inverting `b64eC` on the blob built from
`dataBadC`. -/
def b64dBadC (_ : List Char) : List Char := dataBadC ++ obfSep ++ hex64C.take 32

/-- C6 counterexample: with the digest returning a fixed 64-character hex
value and a colon-free reversible text codec — every property the spec
assumes of the platform primitives — the plaintext `"::" + key32` does NOT
round-trip: decode(encode(s)) is the empty string, because the decoder
splits on the leftmost occurrence of the cut marker, which here starts at
position 0 of the recovered blob rather than at the plaintext boundary. -/
theorem obf_roundtrip_counterexample :
    (':' ∉ saltC) ∧
      (':' ∉ (hashC (obfConst ++ saltC)).take 32) ∧
      ((hashC (obfConst ++ saltC)).take 32 ≠ []) ∧
      (':' ∉ b64eC (dataBadC ++ obfSep ++ (hashC (obfConst ++ saltC)).take 32)) ∧
      (b64dBadC (b64eC (dataBadC ++ obfSep ++ (hashC (obfConst ++ saltC)).take 32)) =
        dataBadC ++ obfSep ++ (hashC (obfConst ++ saltC)).take 32) ∧
      decryptData hashC b64dBadC (encryptData hashC b64eC saltC dataBadC) = [] ∧
      decryptData hashC b64dBadC (encryptData hashC b64eC saltC dataBadC) ≠ dataBadC := by
  decide
